import Mathlib

/- Verification of the RecruitDesk AI repository against its specification.

   The frontend component `frontend/src/components/Dashboard.jsx` is embedded
   shallowly below: its state hooks become the fields of `DashState`, and its
   handlers (`handleFileSelect`, `removeFile`, `handleAnalyze`) become pure
   state-transition functions.  The backend scoring engine (`backend/main.py`)
   is not part of the sources, so the Hybrid Score Combiner and the Ranking
   Aggregator are modelled from the specification where needed. -/

/-! ## Data model -/

/-- The `match_details` object of one ranked resume in the `/rank-resumes`
response, as consumed by `Dashboard.jsx` and `ResultCard.jsx`. -/
structure MatchDetails where
  semantic_score : ℚ
  keyword_score : ℚ
  matched_skills : List String
  missing_skills : List String
  match_reasons : List String
  deriving DecidableEq

/-- One element of `ranked_resumes` in the `/rank-resumes` response. -/
structure RankedResume where
  filename : String
  match_percentage : ℚ
  years_of_experience : ℚ
  summary : String
  match_details : MatchDetails
  deriving DecidableEq

/-- A browser `File` object as far as `Dashboard.jsx` inspects it:
its `name` and its MIME content `type`. -/
structure UploadFile where
  name : String
  type : String
  deriving DecidableEq

/-- The React state of the `Dashboard` component (`Dashboard.jsx` lines
11-20): one field per `useState` hook. -/
structure DashState where
  jobDescription : String
  resumes : List UploadFile
  results : List RankedResume
  loading : Bool
  error : String
  percentProgress : Nat
  filterMinScore : ℚ
  filterSkill : String
  sortBy : String
  deriving DecidableEq

/-! ## JS string primitives used by the component -/

/-- JS `String.prototype.trim` on the character list of a string: whitespace
is removed from both ends. -/
def trimChars (l : List Char) : List Char :=
  ((l.dropWhile Char.isWhitespace).reverse.dropWhile Char.isWhitespace).reverse

/-- `s.trim()` for a Lean-embedded JS string. -/
def jsTrim (s : String) : List Char :=
  trimChars s.data

/-- `s.toLowerCase()` for a Lean-embedded JS string. -/
def lowerChars (s : String) : List Char :=
  s.data.map Char.toLower

/-- JS `hay.includes(needle)`: `needle` occurs contiguously in `hay`. -/
def charsIncludes (needle : List Char) : List Char → Bool
  | [] => needle.isEmpty
  | c :: rest => needle.isPrefixOf (c :: rest) || charsIncludes needle rest

/-! ## Dashboard.jsx handlers -/

/-- `handleFileSelect` (`Dashboard.jsx` lines 26-41): keep only the files
whose content type is `application/pdf`; if none remain, set the PDF-only
error; if the accepted list would grow beyond 10, set the maximum error;
otherwise append the PDF files and clear the error. -/
def handleFileSelect (st : DashState) (files : List UploadFile) : DashState :=
  let pdfFiles := files.filter (fun f => f.type == "application/pdf")
  if pdfFiles.length = 0 then
    { st with error := "Please select PDF files only" }
  else if st.resumes.length + pdfFiles.length > 10 then
    { st with error := "Maximum 10 resumes allowed" }
  else
    { st with resumes := st.resumes ++ pdfFiles, error := "" }

/-- JS `Array.prototype.filter` applied to the predicate
`(_, i) => i !== target`, with `j` the index of the head of the remaining
list: the body of `removeFile` (`Dashboard.jsx` line 66). -/
def filterNeIdx {α : Type} (target : Nat) : Nat → List α → List α
  | _, [] => []
  | j, a :: l =>
      if j = target then filterNeIdx target (j + 1) l
      else a :: filterNeIdx target (j + 1) l

/-- `removeFile` (`Dashboard.jsx` lines 65-67). -/
def removeFile (st : DashState) (index : Nat) : DashState :=
  { st with resumes := filterNeIdx index 0 st.resumes }

/-- The outcome of the `axios.post` call in `handleAnalyze`: either a
response (carrying `response.data.success` and `response.data.ranked_resumes`)
or a thrown error carrying the optional `err.response?.data?.detail`. -/
inductive FetchOutcome where
  | success (ok : Bool) (ranked : List RankedResume)
  | failure (detail : Option String)
  deriving DecidableEq

/-- The fallback error message of the catch block (`Dashboard.jsx` line 113). -/
def analyzeFallbackError : String :=
  "Failed to analyze resumes. Please ensure the backend is running."

/-- `err.response?.data?.detail || fallback` (`Dashboard.jsx` line 113):
a missing or empty detail string is falsy and selects the fallback. -/
def catchMessage : Option String → String
  | some d => if d == "" then analyzeFallbackError else d
  | none => analyzeFallbackError

/-- `handleAnalyze` (`Dashboard.jsx` lines 70-120) as a function of the
starting state and the request outcome.  The returned `Bool` is `true`
exactly when the POST request was sent.  Validation failures return before
`setLoading`/`setResults` run; otherwise the results are cleared, progress
starts at 10, and the outcome is applied, after which the `finally` block
ends loading and resets progress to 0. -/
def handleAnalyze (st : DashState) (outcome : FetchOutcome) : DashState × Bool :=
  if jsTrim st.jobDescription = [] then
    ({ st with error := "Please enter a job description" }, false)
  else if st.resumes.length = 0 then
    ({ st with error := "Please upload at least one resume" }, false)
  else
    let started := { st with loading := true, error := "", results := [], percentProgress := 10 }
    let afterResponse :=
      match outcome with
      | .success ok ranked =>
          let responded := { started with percentProgress := 100 }
          if ok then { responded with results := ranked } else responded
      | .failure detail => { started with error := catchMessage detail }
    ({ afterResponse with loading := false, percentProgress := 0 }, true)

/-! ## The simulated progress timer -/

/-- Events acting on `percentProgress` during one analyze call: an interval
tick (line 96), the response arriving (line 106), and the `finally` reset
(line 117). -/
inductive ProgressEvent where
  | tick
  | respond
  | reset
  deriving DecidableEq

/-- One interval tick: `prev => (prev < 90 ? prev + 5 : prev)`
(`Dashboard.jsx` line 96). -/
def progressTick (p : Nat) : Nat :=
  if p < 90 then p + 5 else p

/-- The effect of one progress event on the progress value. -/
def progressStep (p : Nat) : ProgressEvent → Nat
  | .tick => progressTick p
  | .respond => 100
  | .reset => 0

/-- The progress value after a sequence of events, starting from the
initial `setPercentProgress(10)` of `Dashboard.jsx` line 84. -/
def runProgress (events : List ProgressEvent) : Nat :=
  events.foldl progressStep 10

/-! ## Filtering and sorting of displayed results -/

/-- The sort comparator of `filteredResults` (`Dashboard.jsx` lines 126-130). -/
def jsCompare (sb : String) (a b : RankedResume) : ℚ :=
  if sb == "match" then b.match_percentage - a.match_percentage
  else if sb == "yoe" then b.years_of_experience - a.years_of_experience
  else 0

/-- `a` may precede `b` in the output of the JS sort: the comparator is
nonpositive on `(a, b)`. -/
def jsSortRel (sb : String) (a b : RankedResume) : Prop :=
  jsCompare sb a b ≤ 0

instance (sb : String) : DecidableRel (jsSortRel sb) :=
  fun a b => inferInstanceAs (Decidable (jsCompare sb a b ≤ 0))

/-- JS `Array.prototype.sort` with the comparator of `filteredResults`:
a stable sort placing `a` before `b` when the comparator is negative and
preserving the incoming order on ties. -/
def jsSortResults (sb : String) (l : List RankedResume) : List RankedResume :=
  List.insertionSort (jsSortRel sb) l

/-- The first filter of `filteredResults` (`Dashboard.jsx` line 124):
`r.match_percentage >= filterMinScore`. -/
def minScorePred (m : ℚ) (r : RankedResume) : Bool :=
  decide (m ≤ r.match_percentage)

/-- The second filter of `filteredResults` (`Dashboard.jsx` line 125):
`!filterSkill || r.match_details.matched_skills.some(s =>
s.toLowerCase().includes(filterSkill.toLowerCase()))`. -/
def skillFilterPred (s : String) (r : RankedResume) : Bool :=
  (s == "") ||
    r.match_details.matched_skills.any (fun sk => charsIncludes (lowerChars s) (lowerChars sk))

/-- `filteredResults` (`Dashboard.jsx` lines 123-130): filter by minimum
score, then by skill substring, then sort with the selected comparator. -/
def filteredResults (results : List RankedResume) (m : ℚ) (s : String) (sb : String) :
    List RankedResume :=
  jsSortResults sb ((results.filter (minScorePred m)).filter (skillFilterPred s))

/-! ## The backend scoring engine, modelled from the spec -/

/-- Modelled from the spec: two-decimal rounding as used by the backend
(`backend/main.py` is not among the repository sources).  `round(x, 2)`
rounds `100 * x` to the nearest integer and divides back. -/
def round2 (x : ℚ) : ℚ :=
  (round (x * 100) : ℚ) / 100

/-- Modelled from the spec: the Hybrid Score Combiner of section 4.5
(`backend/main.py` is not among the repository sources):
`final = round(0.6 * semantic_score + 0.4 * keyword_score, 2)`. -/
def hybridScore (s k : ℚ) : ℚ :=
  round2 (6 / 10 * s + 4 / 10 * k)

/-- Modelled from the spec: the per-resume intermediate signals available
when the response entry for one document is assembled. -/
structure ResumeSignals where
  filename : String
  semantic_score : ℚ
  keyword_score : ℚ
  matched_skills : List String
  missing_skills : List String
  match_reasons : List String
  years_of_experience : ℚ
  summary : String
  deriving DecidableEq

/-- Modelled from the spec: assembly of one `ranked_resumes` entry from the
per-document signals; `match_percentage` is produced by the Hybrid Score
Combiner applied to the two component scores. -/
def buildMatchResult (sig : ResumeSignals) : RankedResume :=
  { filename := sig.filename
    match_percentage := hybridScore sig.semantic_score sig.keyword_score
    years_of_experience := sig.years_of_experience
    summary := sig.summary
    match_details :=
      { semantic_score := sig.semantic_score
        keyword_score := sig.keyword_score
        matched_skills := sig.matched_skills
        missing_skills := sig.missing_skills
        match_reasons := sig.match_reasons } }

/-- Descending order on `match_percentage`: `a` may precede `b`. -/
def byMatchDesc (a b : RankedResume) : Prop :=
  b.match_percentage ≤ a.match_percentage

instance : DecidableRel byMatchDesc :=
  fun a b => inferInstanceAs (Decidable (b.match_percentage ≤ a.match_percentage))

instance : IsTotal RankedResume byMatchDesc :=
  ⟨fun a b => le_total b.match_percentage a.match_percentage⟩

instance : IsTrans RankedResume byMatchDesc :=
  ⟨fun _ _ _ h1 h2 => le_trans h2 h1⟩

/-- Modelled from the spec: the Ranking Aggregator of section 4.7
(`backend/main.py` is not among the repository sources): one result per
document, stably sorted by descending `match_percentage`. -/
def rankResumes (sigs : List ResumeSignals) : List RankedResume :=
  List.insertionSort byMatchDesc (sigs.map buildMatchResult)

/-! ## Concrete states used by the witnesses -/

/-- The initial Dashboard state: all hooks at their `useState` defaults. -/
def emptyDash : DashState :=
  { jobDescription := ""
    resumes := []
    results := []
    loading := false
    error := ""
    percentProgress := 0
    filterMinScore := 0
    filterSkill := ""
    sortBy := "match" }

/-- A PDF upload file. -/
def pdfFile : UploadFile :=
  { name := "resume.pdf", type := "application/pdf" }

/-- A non-PDF upload file. -/
def nonPdfFile : UploadFile :=
  { name := "notes.txt", type := "text/plain" }

/-- A selection mixing one PDF and one non-PDF file. -/
def mixedBatch : List UploadFile :=
  [pdfFile, nonPdfFile]

/-- A state already holding ten accepted resumes. -/
def st10 : DashState :=
  { emptyDash with resumes := List.replicate 10 pdfFile }

/-- A state whose job description is whitespace only. -/
def wsState : DashState :=
  { emptyDash with jobDescription := "   " }

/-- A concrete ranked resume with integral scores. -/
def resultA : RankedResume :=
  { filename := "a.pdf"
    match_percentage := 80
    years_of_experience := 5
    summary := "strong"
    match_details :=
      { semantic_score := 90
        keyword_score := 70
        matched_skills := ["python"]
        missing_skills := []
        match_reasons := [] } }

/-- A state with a valid job description but no uploaded files, and with
previously displayed results. -/
def jdOnly : DashState :=
  { emptyDash with jobDescription := "Python developer", results := [resultA] }

/-- A state that passes validation and has previously displayed results. -/
def readyState : DashState :=
  { emptyDash with
      jobDescription := "Python developer"
      resumes := [pdfFile]
      results := [resultA] }

/-- A state with previously displayed results but empty inputs. -/
def staleResults : DashState :=
  { emptyDash with results := [resultA] }

/-- Concrete per-document signals with integral scores. -/
def sigX : ResumeSignals :=
  { filename := "x.pdf"
    semantic_score := 80
    keyword_score := 50
    matched_skills := ["python"]
    missing_skills := ["aws"]
    match_reasons := ["Matched key skills: python"]
    years_of_experience := 3
    summary := "ok" }

/-- A state holding three distinct uploaded files. -/
def st3 : DashState :=
  { emptyDash with
      resumes :=
        [{ name := "a.pdf", type := "application/pdf" },
         { name := "b.pdf", type := "application/pdf" },
         { name := "c.pdf", type := "application/pdf" }] }

/-! ## Helper lemmas -/

theorem orderedInsert_rel_congr {α : Type} (r s : α → α → Prop)
    [DecidableRel r] [DecidableRel s] (h : ∀ a b, r a b ↔ s a b) (x : α) :
    ∀ l : List α, List.orderedInsert r x l = List.orderedInsert s x l
  | [] => rfl
  | y :: ys => by
      simp only [List.orderedInsert]
      by_cases hr : r x y
      · rw [if_pos hr, if_pos ((h x y).mp hr)]
      · rw [if_neg hr, if_neg (fun hs => hr ((h x y).mpr hs)),
          orderedInsert_rel_congr r s h x ys]

theorem insertionSort_rel_congr {α : Type} (r s : α → α → Prop)
    [DecidableRel r] [DecidableRel s] (h : ∀ a b, r a b ↔ s a b) :
    ∀ l : List α, List.insertionSort r l = List.insertionSort s l
  | [] => rfl
  | a :: l => by
      simp only [List.insertionSort]
      rw [insertionSort_rel_congr r s h l, orderedInsert_rel_congr r s h a _]

theorem jsSortRel_match_iff (a b : RankedResume) :
    jsSortRel "match" a b ↔ byMatchDesc a b := by
  unfold jsSortRel jsCompare byMatchDesc
  rw [if_pos (by decide)]
  exact sub_nonpos

theorem filter_orderedInsert_of_not {α : Type} (r : α → α → Prop) [DecidableRel r]
    (p : α → Bool) (x : α) (hx : p x = false) :
    ∀ l : List α, List.filter p (List.orderedInsert r x l) = List.filter p l
  | [] => by simp [List.orderedInsert, List.filter_cons, hx]
  | y :: ys => by
      simp only [List.orderedInsert]
      by_cases h : r x y
      · rw [if_pos h]
        simp [List.filter_cons, hx]
      · rw [if_neg h]
        simp only [List.filter_cons, filter_orderedInsert_of_not r p x hx ys]

theorem filter_orderedInsert_of_key (x : RankedResume) (v : ℚ)
    (hx : x.match_percentage = v) :
    ∀ l : List RankedResume, List.Sorted byMatchDesc l →
      List.filter (fun a => a.match_percentage == v) (List.orderedInsert byMatchDesc x l) =
        x :: List.filter (fun a => a.match_percentage == v) l
  | [], _ => by simp [List.orderedInsert, List.filter_cons, hx]
  | y :: ys, hs => by
      simp only [List.orderedInsert]
      by_cases h : byMatchDesc x y
      · rw [if_pos h]
        simp [List.filter_cons, hx]
      · rw [if_neg h]
        have hy : (y.match_percentage == v) = false := by
          rw [beq_eq_false_iff_ne]
          intro hv
          exact h (le_of_eq (hv.trans hx.symm))
        simp only [List.filter_cons, hy,
          filter_orderedInsert_of_key x v hx ys hs.of_cons]
        simp

theorem filter_insertionSort_stable (v : ℚ) :
    ∀ l : List RankedResume,
      List.filter (fun a => a.match_percentage == v) (List.insertionSort byMatchDesc l) =
        List.filter (fun a => a.match_percentage == v) l
  | [] => rfl
  | x :: l => by
      simp only [List.insertionSort]
      by_cases hx : x.match_percentage = v
      · rw [filter_orderedInsert_of_key x v hx _
            (List.sorted_insertionSort byMatchDesc _),
          filter_insertionSort_stable v l, List.filter_cons]
        simp [hx]
      · have hx' : (x.match_percentage == v) = false := by
          rw [beq_eq_false_iff_ne]; exact hx
        rw [filter_orderedInsert_of_not byMatchDesc _ x hx' _,
          filter_insertionSort_stable v l, List.filter_cons]
        simp [hx']

theorem charsIncludes_iff (n : List Char) :
    ∀ h : List Char, charsIncludes n h = true ↔ n <:+: h
  | [] => by
      simp only [charsIncludes, List.isEmpty_iff, List.infix_nil]
  | c :: t => by
      rw [charsIncludes, Bool.or_eq_true, List.isPrefixOf_iff_prefix,
        charsIncludes_iff n t, ← List.infix_cons_iff]

theorem filterNeIdx_of_lt {α : Type} (target : Nat) :
    ∀ (l : List α) (j : Nat), target < j → filterNeIdx target j l = l
  | [], _, _ => rfl
  | a :: l, j, hj => by
      rw [filterNeIdx, if_neg (by omega), filterNeIdx_of_lt target l (j + 1) (by omega)]

theorem filterNeIdx_take_drop {α : Type} :
    ∀ (l : List α) (i j : Nat), i < l.length →
      filterNeIdx (j + i) j l = l.take i ++ l.drop (i + 1)
  | [], i, j, h => by simp at h
  | a :: l, 0, j, _ => by
      rw [filterNeIdx, if_pos (by omega), filterNeIdx_of_lt (j + 0) l (j + 1) (by omega)]
      simp
  | a :: l, i + 1, j, h => by
      rw [filterNeIdx, if_neg (by omega)]
      have hi : i < l.length := by simpa using h
      have := filterNeIdx_take_drop l i (j + 1) hi
      rw [show j + (i + 1) = (j + 1) + i by omega, this]
      simp

theorem catchMessage_ne_empty (d : Option String) : catchMessage d ≠ "" := by
  match d with
  | none => decide
  | some s =>
      rw [catchMessage]
      by_cases h : (s == "") = true
      · rw [if_pos h]; decide
      · rw [if_neg h]
        exact fun hs => h (by rw [hs]; rfl)

theorem foldl_tick_formula (n : Nat) :
    ∀ p : Nat, p % 5 = 0 → p ≤ 90 →
      List.foldl progressStep p (List.replicate n .tick) = min 90 (p + 5 * n) := by
  induction n with
  | zero => intro p _ hle; simp; omega
  | succ n ih =>
      intro p h5 hle
      rw [List.replicate_succ, List.foldl_cons]
      have hstep : progressStep p .tick = progressTick p := rfl
      rw [hstep, progressTick]
      by_cases h : p < 90
      · rw [if_pos h, ih (p + 5) (by omega) (by omega)]
        omega
      · rw [if_neg h, ih p h5 hle]
        omega

/-! ## Claims -/

/-- C1: for every result returned by the (spec-modelled) ranking engine, the
final `match_percentage` equals `round(0.6 * semantic_score +
0.4 * keyword_score, 2)` exactly, as a pure function of the two component
scores. -/
theorem C1_match_percentage_is_hybrid (sigs : List ResumeSignals) (r : RankedResume)
    (hr : r ∈ rankResumes sigs) :
    r.match_percentage =
      round2 (6 / 10 * r.match_details.semantic_score +
        4 / 10 * r.match_details.keyword_score) := by
  unfold rankResumes at hr
  rw [List.mem_insertionSort] at hr
  obtain ⟨sig, _, rfl⟩ := List.mem_map.mp hr
  rfl

/-- Witness for C1 at a concrete one-document batch. -/
theorem C1_witness :
    buildMatchResult sigX ∈ rankResumes [sigX] ∧
      (buildMatchResult sigX).match_percentage =
        round2 (6 / 10 * (buildMatchResult sigX).match_details.semantic_score +
          4 / 10 * (buildMatchResult sigX).match_details.keyword_score) := by
  have hmem : buildMatchResult sigX ∈ rankResumes [sigX] := by
    simp [rankResumes, List.insertionSort]
  exact ⟨hmem, C1_match_percentage_is_hybrid [sigX] _ hmem⟩

/-- C2: whenever the already-accepted resumes (at most 10 in any reachable
state) plus the newly selected PDF files number more than 10, the selection
is rejected with the error `Maximum 10 resumes allowed` and the
accepted-resume list is left unchanged. -/
theorem C2_max_ten_rejected (st : DashState) (files : List UploadFile)
    (hinv : st.resumes.length ≤ 10)
    (hover : st.resumes.length +
      (files.filter (fun f => f.type == "application/pdf")).length > 10) :
    handleFileSelect st files = { st with error := "Maximum 10 resumes allowed" } ∧
      (handleFileSelect st files).resumes = st.resumes := by
  have hne : (files.filter (fun f => f.type == "application/pdf")).length ≠ 0 := by
    omega
  have heq : handleFileSelect st files = { st with error := "Maximum 10 resumes allowed" } := by
    unfold handleFileSelect
    rw [if_neg hne, if_pos hover]
  exact ⟨heq, by rw [heq]⟩

/-- Witness for C2: ten accepted resumes plus one new PDF. -/
theorem C2_witness :
    st10.resumes.length ≤ 10 ∧
      st10.resumes.length +
        (([pdfFile] : List UploadFile).filter (fun f => f.type == "application/pdf")).length > 10 ∧
      handleFileSelect st10 [pdfFile] = { st10 with error := "Maximum 10 resumes allowed" } :=
  ⟨by decide, by decide, (C2_max_ten_rejected st10 [pdfFile] (by decide) (by decide)).1⟩

/-- C3 counterexample: a selection containing a non-PDF file is not rejected;
the PDF file in it is accepted and the error is cleared. -/
theorem C3_counterexample :
    (∃ f ∈ mixedBatch, f.type ≠ "application/pdf") ∧
      (handleFileSelect emptyDash mixedBatch).resumes = [pdfFile] ∧
      (handleFileSelect emptyDash mixedBatch).error = "" := by
  decide

/-- C3 amended: a selection containing a non-PDF file has its non-PDF files
silently dropped.  It is rejected (error `Please select PDF files only`,
state otherwise unchanged) exactly when it contains no PDF file at all;
otherwise the accepted list either stays unchanged (cap exceeded) or grows
by exactly the PDF files of the selection, so a non-PDF file is never
accepted. -/
theorem C3_nonpdf_dropped (st : DashState) (files : List UploadFile)
    (_hnp : ∃ f ∈ files, f.type ≠ "application/pdf") :
    (files.filter (fun f => f.type == "application/pdf") = [] →
        handleFileSelect st files = { st with error := "Please select PDF files only" }) ∧
      (files.filter (fun f => f.type == "application/pdf") ≠ [] →
        (handleFileSelect st files).resumes = st.resumes ∨
          (handleFileSelect st files).resumes =
            st.resumes ++ files.filter (fun f => f.type == "application/pdf")) := by
  constructor
  · intro hempty
    unfold handleFileSelect
    rw [if_pos (by rw [hempty]; rfl)]
  · intro hne
    have hlen : (files.filter (fun f => f.type == "application/pdf")).length ≠ 0 := by
      intro h
      exact hne (List.length_eq_zero.mp h)
    unfold handleFileSelect
    rw [if_neg hlen]
    by_cases hcap :
        st.resumes.length + (files.filter (fun f => f.type == "application/pdf")).length > 10
    · rw [if_pos hcap]
      exact Or.inl rfl
    · rw [if_neg hcap]
      exact Or.inr rfl

/-- Witness for C3 amended, at the mixed PDF/non-PDF selection. -/
theorem C3_witness :
    mixedBatch.filter (fun f => f.type == "application/pdf") ≠ [] ∧
      ((handleFileSelect emptyDash mixedBatch).resumes = emptyDash.resumes ∨
        (handleFileSelect emptyDash mixedBatch).resumes =
          emptyDash.resumes ++ mixedBatch.filter (fun f => f.type == "application/pdf")) :=
  ⟨by decide, (C3_nonpdf_dropped emptyDash mixedBatch (by decide)).2 (by decide)⟩

/-- C4: an analyze invocation whose job description is empty or
whitespace-only after trimming fails with the error
`Please enter a job description`; the request is not sent and the state is
otherwise unchanged. -/
theorem C4_empty_job_description (st : DashState) (outcome : FetchOutcome)
    (h : jsTrim st.jobDescription = []) :
    handleAnalyze st outcome = ({ st with error := "Please enter a job description" }, false) := by
  unfold handleAnalyze
  rw [if_pos h]

/-- Witness for C4 at a whitespace-only job description. -/
theorem C4_witness :
    jsTrim wsState.jobDescription = [] ∧
      handleAnalyze wsState (.failure none) =
        ({ wsState with error := "Please enter a job description" }, false) :=
  ⟨by decide, C4_empty_job_description wsState (.failure none) (by decide)⟩

/-- C5 counterexample: with an empty job description and zero files, the
operation fails with `Please enter a job description`, not with
`Please upload at least one resume`, because the job-description check runs
first. -/
theorem C5_counterexample :
    emptyDash.resumes.length = 0 ∧
      (handleAnalyze emptyDash (.failure none)).1.error = "Please enter a job description" ∧
      (handleAnalyze emptyDash (.failure none)).1.error ≠ "Please upload at least one resume" := by
  decide

/-- C5 amended: an analyze invocation with zero uploaded resume files and a
job description that is non-empty after trimming fails with the error
`Please upload at least one resume`; the request is not sent and the state
is otherwise unchanged.  (With an empty job description the
job-description validation error takes precedence.) -/
theorem C5_zero_files_rejected (st : DashState) (outcome : FetchOutcome)
    (hjd : jsTrim st.jobDescription ≠ [])
    (hz : st.resumes.length = 0) :
    handleAnalyze st outcome =
      ({ st with error := "Please upload at least one resume" }, false) := by
  unfold handleAnalyze
  rw [if_neg hjd, if_pos hz]

/-- Witness for C5 amended: a valid job description and no files. -/
theorem C5_witness :
    jsTrim jdOnly.jobDescription ≠ [] ∧
      jdOnly.resumes.length = 0 ∧
      handleAnalyze jdOnly (.failure none) =
        ({ jdOnly with error := "Please upload at least one resume" }, false) :=
  ⟨by decide, by decide, C5_zero_files_rejected jdOnly (.failure none) (by decide) (by decide)⟩

/-- C6: with the default sort mode `match`, the displayed list is ordered by
`match_percentage` descending, and the results carrying any given
`match_percentage` value appear in exactly the relative order they had in
the incoming (filtered) results list: the sort is stable. -/
theorem C6_match_sort_desc_stable (results : List RankedResume) (m : ℚ) (s : String) :
    List.Sorted (fun a b => b.match_percentage ≤ a.match_percentage)
      (filteredResults results m s "match") ∧
      ∀ v : ℚ,
        (filteredResults results m s "match").filter (fun r => r.match_percentage == v) =
          ((results.filter (minScorePred m)).filter (skillFilterPred s)).filter
            (fun r => r.match_percentage == v) := by
  have hrw : filteredResults results m s "match" =
      List.insertionSort byMatchDesc
        ((results.filter (minScorePred m)).filter (skillFilterPred s)) := by
    unfold filteredResults jsSortResults
    exact insertionSort_rel_congr _ _ jsSortRel_match_iff _
  constructor
  · rw [hrw]
    exact List.sorted_insertionSort byMatchDesc _
  · intro v
    rw [hrw]
    exact filter_insertionSort_stable v _

/-- C7: during one analyze call the simulated progress starts at 10,
gains 5 per timer tick, never exceeds 90 however many ticks fire before the
response, becomes 100 when the response arrives, and is reset to 0 when
loading ends. -/
theorem C7_progress_behavior (n : Nat) :
    runProgress (List.replicate n .tick) = min 90 (10 + 5 * n) ∧
      runProgress (List.replicate n .tick) ≤ 90 ∧
      runProgress (List.replicate n .tick ++ [.respond]) = 100 ∧
      runProgress (List.replicate n .tick ++ [.respond, .reset]) = 0 := by
  have h1 : runProgress (List.replicate n .tick) = min 90 (10 + 5 * n) :=
    foldl_tick_formula n 10 rfl (by omega)
  refine ⟨h1, ?_, ?_, ?_⟩
  · rw [h1]
    exact min_le_left 90 (10 + 5 * n)
  · rw [runProgress, List.foldl_append]
    rfl
  · rw [runProgress, List.foldl_append]
    rfl

/-- C8: a result is displayed exactly when its `match_percentage` is at
least the minimum-score filter and the skill filter is empty or matches one
of its matched skills as a case-insensitive substring; with the default
filters (0, empty) every returned result with a nonnegative score is
displayed. -/
theorem C8_display_iff (results : List RankedResume) (m : ℚ) (s : String)
    (sb : String) (r : RankedResume) :
    (r ∈ filteredResults results m s sb ↔
        r ∈ results ∧ m ≤ r.match_percentage ∧
          (s = "" ∨ ∃ sk ∈ r.match_details.matched_skills,
            lowerChars s <:+: lowerChars sk)) ∧
      ((∀ x ∈ results, 0 ≤ x.match_percentage) →
        ∀ x ∈ results, x ∈ filteredResults results 0 "" sb) := by
  have key : ∀ (m' : ℚ) (s' : String) (x : RankedResume),
      x ∈ filteredResults results m' s' sb ↔
        x ∈ results ∧ m' ≤ x.match_percentage ∧
          (s' = "" ∨ ∃ sk ∈ x.match_details.matched_skills,
            lowerChars s' <:+: lowerChars sk) := by
    intro m' s' x
    unfold filteredResults jsSortResults
    rw [List.mem_insertionSort, List.mem_filter, List.mem_filter]
    unfold minScorePred skillFilterPred
    simp [List.any_eq_true, charsIncludes_iff, and_assoc]
  exact ⟨key m s r, fun hpos x hx => (key 0 "" x).mpr ⟨hx, hpos x hx, Or.inl rfl⟩⟩

/-- Witness for C8: with the default filters the concrete result is
displayed. -/
theorem C8_witness :
    resultA ∈ filteredResults [resultA] 0 "" "match" :=
  (C8_display_iff [resultA] 0 "" "match" resultA).2 (by decide) resultA (by simp)

/-- C9: the analyze operation is not atomic with respect to displayed
results.  A validation failure leaves the displayed results unchanged, but
once validation passes, the previous results are cleared before the request,
so a failed request leaves an empty results list together with a non-empty
error message. -/
theorem C9_analyze_not_atomic (st : DashState) (outcome : FetchOutcome) :
    ((jsTrim st.jobDescription = [] ∨ st.resumes.length = 0) →
        (handleAnalyze st outcome).1.results = st.results) ∧
      (jsTrim st.jobDescription ≠ [] → st.resumes.length ≠ 0 →
        ∀ d : Option String, outcome = .failure d →
          (handleAnalyze st outcome).1.results = [] ∧
            (handleAnalyze st outcome).1.error ≠ "") := by
  constructor
  · intro hval
    unfold handleAnalyze
    rcases hval with h | h
    · rw [if_pos h]
    · by_cases h1 : jsTrim st.jobDescription = []
      · rw [if_pos h1]
      · rw [if_neg h1, if_pos h]
  · intro h1 h2 d hd
    subst hd
    unfold handleAnalyze
    rw [if_neg h1, if_neg h2]
    exact ⟨rfl, catchMessage_ne_empty d⟩

/-- Witness for C9: results survive a validation failure but are empty after
a failed request. -/
theorem C9_witness :
    (handleAnalyze staleResults (.failure none)).1.results = staleResults.results ∧
      (handleAnalyze readyState (.failure none)).1.results = [] ∧
      (handleAnalyze readyState (.failure none)).1.error ≠ "" :=
  ⟨(C9_analyze_not_atomic staleResults (.failure none)).1 (Or.inl (by decide)),
    ((C9_analyze_not_atomic readyState (.failure none)).2 (by decide) (by decide) none rfl).1,
    ((C9_analyze_not_atomic readyState (.failure none)).2 (by decide) (by decide) none rfl).2⟩

/-- C10: removing the file at a valid index removes exactly that entry and
keeps every other entry in its original relative order. -/
theorem C10_removeFile_exact (st : DashState) (i : Nat) (h : i < st.resumes.length) :
    (removeFile st i).resumes = st.resumes.take i ++ st.resumes.drop (i + 1) := by
  unfold removeFile
  have h0 := filterNeIdx_take_drop st.resumes i 0 h
  rw [Nat.zero_add] at h0
  exact h0

/-- Witness for C10: removing the middle one of three files. -/
theorem C10_witness :
    1 < st3.resumes.length ∧
      (removeFile st3 1).resumes = st3.resumes.take 1 ++ st3.resumes.drop 2 :=
  ⟨by decide, C10_removeFile_exact st3 1 (by decide)⟩
